import Mathlib

/-!
# go-omaha: retrying transport, package verifier and kind-checked decoding

Shallow embedding of `omaha/client/http.go` (`doPost`, `Omaha`) together with
the parts of package `omaha` that its tests exercise (`Package.Verify`,
`ParseRequest`, `ParseResponse`).

Conventions of the embedding:

* a Go `error` value is a term of `Error`; `nil` is `none : Option Error`;
* a Go pointer result `*omaha.Response` is `Option ρ` (`none` is `nil`);
* the HTTP transport is a state-passing function `Post` over an arbitrary
  state type `σ`, so that successive attempts may see different outcomes;
* collaborators that live outside `http.go` (the XML encoder, the response
  decoder, the method set of `httpError`) are parameters of the definitions.
-/

namespace omaha

namespace client

/-! ## Errors -/

/-- A reply of the HTTP transport: the fields of `*http.Response` that
`doPost` reads. `ContentType` is `resp.Header.Get("Content-Type")`. -/
structure HTTPResponse where
  StatusCode : Int
  ContentType : String
  Body : String
deriving DecidableEq, Repr

/-- Go `error` values that occur in `http.go`.

* `ext text temporary`: an error produced by a collaborator (`http.Client.Post`,
  `omaha.ParseResponse`, `xml.Encoder.Encode`); `temporary` records whether
  the value satisfies `net.Error` and its `Temporary()` returns true;
* `httpError resp`: the value `&httpError{resp}` built by `doPost`;
* `errorf context cause`: the value `fmt.Errorf(context + "%v", cause)`. -/
inductive Error where
  | ext (text : String) (temporary : Bool)
  | httpError (resp : HTTPResponse)
  | errorf (context : String) (cause : Error)
deriving DecidableEq, Repr

/-- The retry test of `Omaha`, `neterr, ok := err.(net.Error); ok && neterr.Temporary()`,
on a non-nil error. `httpTemporary` says whether an `httpError` for a given
reply passes that test; a `fmt.Errorf` value is a plain error string and never does. -/
def Error.isTemporary (httpTemporary : HTTPResponse → Bool) : Error → Bool
  | .ext _ t => t
  | .httpError resp => httpTemporary resp
  | .errorf _ _ => false

/-- The retry test of `Omaha` on a possibly nil error: the type assertion
fails on `nil`. -/
def isTemporary (httpTemporary : HTTPResponse → Bool) : Option Error → Bool
  | none => false
  | some e => e.isTemporary httpTemporary

/-- The `Error()` text of an error, given the text of an `httpError`. -/
def Error.text (httpText : HTTPResponse → String) : Error → String
  | .ext t _ => t
  | .httpError resp => httpText resp
  | .errorf c e => c ++ e.text httpText

/-! ## Transport -/

/-- The arguments of one call of `http.Client.Post`. -/
structure PostCall where
  url : String
  contentType : String
  body : String
deriving DecidableEq, Repr

/-- What a call of `Omaha` does to the outside, in order. -/
inductive Event where
  | encode
  | post (call : PostCall)
deriving DecidableEq, Repr

/-- The embedded `http.Client`: `Post` maps the transport state and the call
to either an error or a reply, and the next transport state. -/
structure httpClient (σ : Type) where
  Post : σ → PostCall → Except Error HTTPResponse × σ

/-- `http.StatusOK`. -/
def StatusOK : Int := 200

/-- `defaultTries` of `http.go`. -/
def defaultTries : Nat := 7

/-- `xml.Header` of `encoding/xml`. -/
def xmlHeader : String := "<?xml version=\"1.0\" encoding=\"UTF-8\"?>\n"

/-- Values of the named results and of the world after a step. -/
structure Result (ρ σ : Type) where
  resp : Option ρ
  err : Option Error
  net : σ
  events : List Event

/-- The call that `doPost url reqBody` hands to `hc.Post`. -/
def postCall (url reqBody : String) : PostCall :=
  ⟨url, "text/xml; charset=utf-8", reqBody⟩

/-- `httpClient.doPost`: one HTTP POST, the reply parsed by `ParseResponse`.
A reply whose status is not `http.StatusOK` overrides the parse error with
`&httpError{resp}`; the parsed response is returned as is. -/
def doPost {ρ σ : Type} (hc : httpClient σ)
    (ParseResponse : String → String → Option ρ × Option Error)
    (s : σ) (url reqBody : String) : Result ρ σ :=
  match hc.Post s (postCall url reqBody) with
  | (.error err, s') => ⟨none, some err, s', [.post (postCall url reqBody)]⟩
  | (.ok resp, s') =>
    let parsed := ParseResponse resp.ContentType resp.Body
    let err := if resp.StatusCode ≠ StatusOK then some (Error.httpError resp) else parsed.2
    ⟨parsed.1, err, s', [.post (postCall url reqBody)]⟩

/-- The loop `for i := 0; i < defaultTries; i++` of `Omaha`, by the number
of iterations left (`defaultTries - i`). `resp` and `err` are the named
results, assigned by every iteration. -/
def retryLoop {ρ σ : Type} (hc : httpClient σ)
    (ParseResponse : String → String → Option ρ × Option Error)
    (httpTemporary : HTTPResponse → Bool) (url reqBody : String) :
    Nat → Option ρ → Option Error → σ → Result ρ σ
  | 0, resp, err, s => ⟨resp, err, s, []⟩
  | n + 1, _, _, s =>
    let a := doPost hc ParseResponse s url reqBody
    if isTemporary httpTemporary a.err then
      let r := retryLoop hc ParseResponse httpTemporary url reqBody n a.resp a.err a.net
      ⟨r.resp, r.err, r.net, a.events ++ r.events⟩
    else
      a

/-- `httpClient.Omaha`: encode the request after `xml.Header`, post it up
to `defaultTries` times while the error is temporary, wrap the final error.
`Encode req` is what `xml.NewEncoder(buf).Encode(req)` writes to the buffer,
or its error. -/
def Omaha {ρ σ Req : Type} (hc : httpClient σ)
    (Encode : Req → Except Error String)
    (ParseResponse : String → String → Option ρ × Option Error)
    (httpTemporary : HTTPResponse → Bool)
    (s : σ) (url : String) (req : Req) : Result ρ σ :=
  match Encode req with
  | .error err =>
    ⟨none, some (.errorf "omaha: failed to encode request: " err), s, [.encode]⟩
  | .ok out =>
    let r := retryLoop hc ParseResponse httpTemporary url (xmlHeader ++ out)
      defaultTries none none s
    match r.err with
    | some err => ⟨none, some (.errorf "omaha: request failed: " err), r.net, .encode :: r.events⟩
    | none => ⟨r.resp, none, r.net, .encode :: r.events⟩

/-- The transport state after `n` posts of the same call. -/
def netAfter {σ : Type} (hc : httpClient σ) (call : PostCall) : Nat → σ → σ
  | 0, s => s
  | n + 1, s => netAfter hc call n (hc.Post s call).2

/-- Modelled from the spec: the methods of `httpError` (whether the type
satisfies `net.Error`, and what its `Temporary()` returns) are declared outside
`http.go`. The spec keeps HTTPStatusError apart from TransientTransportError
and says that HTTP-status errors are never retried, and that only a
TransientTransportError triggers a retry: an `httpError` does not pass the
retry test of `Omaha`, whatever the status. -/
def httpErrorTemporary : HTTPResponse → Bool := fun _ => false

end client

/-! ## Package verifier -/

/-- The `Metadata` struct used by the tests of `Package`. -/
structure Metadata where
  ContentType : String
  Content : String
deriving DecidableEq, Repr

/-- The `Package` struct, with the fields the tests set. -/
structure Package where
  Name : String
  SHA1 : String
  SHA256 : String
  Size : Nat
  Required : Bool
  Metadata : Option Metadata
deriving DecidableEq, Repr

/-- The errors `Verify` can return: the two sentinels compared by the tests,
and an I/O error of the artifact. -/
inductive PackageError where
  | PackageSizeMismatchError
  | PackageHashMismatchError
  | io (text : String)
deriving DecidableEq, Repr

/-- The collaborators of the verifier: the file system (`readFile path` is the
artifact's bytes or an I/O error), `filepath.Join`, `filepath.Base`, and the
base64 text of the SHA-1 and SHA-256 digests of a byte sequence. -/
structure Env where
  readFile : String → Except String (List Nat)
  join : String → String → String
  base : String → String
  sha1 : List Nat → String
  sha256 : List Nat → String

/-- Modelled from the spec: `Package.FromReader` is not among the available
sources. It computes SHA-1, SHA-256 and the byte count of the stream and sets
Size and both digests (base64) on the Package, without setting Name; it fails
only on a stream read error. -/
def Package.FromReader (env : Env) (p : Package) (stream : Except String (List Nat)) :
    Except PackageError Package :=
  match stream with
  | .error e => .error (.io e)
  | .ok bytes =>
    .ok { p with Size := bytes.length, SHA1 := env.sha1 bytes, SHA256 := env.sha256 bytes }

/-- Modelled from the spec: `Package.FromPath` is not among the available
sources. It opens the artifact at `path`, computes size and digests as
`FromReader` does, and sets Name to the artifact's base name; it fails with an
I/O error if the artifact cannot be opened or read. -/
def Package.FromPath (env : Env) (p : Package) (path : String) : Except PackageError Package :=
  match Package.FromReader env p (env.readFile path) with
  | .error e => .error e
  | .ok q => .ok { q with Name := env.base path }

/-- Modelled from the spec: `Package.Verify` is not among the available
sources. It resolves the Package's Name against `basePath`, recomputes size and
both digests from that location, and compares against the recorded
Size/SHA1/SHA256: a mismatched size is a size-mismatch error (never a
hash-mismatch), a mismatched SHA1 is a hash-mismatch error, and SHA256 is
compared only if the recorded value is non-empty. -/
def Package.Verify (env : Env) (p : Package) (basePath : String) : Except PackageError Unit :=
  match Package.FromPath env ⟨"", "", "", 0, false, none⟩ (env.join basePath p.Name) with
  | .error e => .error e
  | .ok pkg =>
    if p.Size ≠ pkg.Size then .error .PackageSizeMismatchError
    else if p.SHA1 ≠ pkg.SHA1 then .error .PackageHashMismatchError
    else if p.SHA256 ≠ "" ∧ p.SHA256 ≠ pkg.SHA256 then .error .PackageHashMismatchError
    else .ok ()

/-! ## Kind-checked decoding -/

/-- The errors of `ParseRequest` and `ParseResponse` in the spec's taxonomy. -/
inductive ParseError where
  | ProtocolKindMismatch (expected found : String)
  | DecodeError (text : String)
deriving DecidableEq, Repr

/-- The XML library under the parse functions: `rootElement contentType body`
is the name of the root element of a well-formed document (`none` when the
body is not one), and the two structural decoders fill a model of the given
kind from the document. -/
structure Codec (Req Resp : Type) where
  rootElement : String → String → Option String
  decodeRequest : String → String → Except String Req
  decodeResponse : String → String → Except String Resp

/-- Modelled from the spec: `ParseRequest` is not among the available sources.
It first inspects the document's root element name and fails with a
kind-mismatch error, before any structural decode, if the name is not
"request". -/
def ParseRequest {Req Resp : Type} (c : Codec Req Resp) (contentType body : String) :
    Except ParseError Req :=
  match c.rootElement contentType body with
  | none => .error (.DecodeError "malformed document")
  | some name =>
    if name ≠ "request" then .error (.ProtocolKindMismatch "request" name)
    else match c.decodeRequest contentType body with
      | .error e => .error (.DecodeError e)
      | .ok req => .ok req

/-- Modelled from the spec: `ParseResponse` is not among the available sources.
It first inspects the document's root element name and fails with a
kind-mismatch error, before any structural decode, if the name is not
"response". -/
def ParseResponse {Req Resp : Type} (c : Codec Req Resp) (contentType body : String) :
    Except ParseError Resp :=
  match c.rootElement contentType body with
  | none => .error (.DecodeError "malformed document")
  | some name =>
    if name ≠ "response" then .error (.ProtocolKindMismatch "response" name)
    else match c.decodeResponse contentType body with
      | .error e => .error (.DecodeError e)
      | .ok resp => .ok resp

/-! ## Concrete collaborators for the examples -/

namespace example_data

open client

/-- The characters of an element name, read up to the first character that
cannot belong to one. -/
def takeName : List Char → List Char
  | [] => []
  | c :: cs => if c.isAlphanum ∨ c = '_' ∨ c = '-' ∨ c = ':' ∨ c = '.' then c :: takeName cs else []

/-- The name of the first element of a document: the first `<` that does
not open a declaration, a processing instruction or a closing tag. -/
def scanRoot : List Char → Option String
  | [] => none
  | c :: cs =>
    if c = '<' then
      match cs with
      | [] => none
      | d :: _ =>
        if d = '?' ∨ d = '!' then scanRoot cs
        else if d.isAlpha ∨ d = '_' then some (String.mk (takeName cs))
        else none
    else scanRoot cs

/-- A codec whose tokenizer is `scanRoot` and whose structural decoders are
permissive: they accept every document, of either kind, and return its text. -/
def permissiveCodec : Codec String String where
  rootElement := fun _ body => scanRoot body.data
  decodeRequest := fun _ body => .ok body
  decodeResponse := fun _ body => .ok body

/-- The `sampleRequest` document of `protocol_test.go` (head and tail). -/
def sampleRequest : String :=
  "<?xml version=\"1.0\" encoding=\"UTF-8\"?>\n<request protocol=\"3.0\" version=\"ChromeOSUpdateEngine-0.1.0.0\" updaterversion=\"ChromeOSUpdateEngine-0.1.0.0\" installsource=\"ondemandupdate\" ismachine=\"1\">\n<os version=\"Indy\" platform=\"Chrome OS\" sp=\"ForcedUpdate_x86_64\"></os>\n</request>\n"

/-- The `sampleResponse` document of `protocol_test.go` (head and tail). -/
def sampleResponse : String :=
  "<?xml version=\"1.0\" encoding=\"UTF-8\"?>\n<response protocol=\"3.0\">\n<daystart elapsed_seconds=\"49008\"/>\n</response>\n"

/-- `omaha.ParseResponse` as `doPost` sees it: a response and a nil error, or
a nil response and a decode error that is not a `net.Error`. -/
def parseResponse (contentType body : String) : Option String × Option Error :=
  match ParseResponse permissiveCodec contentType body with
  | .ok resp => (some resp, none)
  | .error (.ProtocolKindMismatch _ _) => (none, some (.ext "omaha: unexpected root element" false))
  | .error (.DecodeError e) => (none, some (.ext e false))

/-- A transport that plays a script: the `n`-th post of a call gets the
`n`-th outcome of the list, and a temporary failure once the list is over. -/
def scripted (outcomes : List (Except Error HTTPResponse)) : httpClient Nat where
  Post := fun n _ => (outcomes.getD n (.error (.ext "connection refused" true)), n + 1)

/-- A temporary failure of the transport (a `net.Error` whose `Temporary()` is true). -/
def timeout : Except Error HTTPResponse := .error (.ext "i/o timeout" true)

/-- A reply with the given status whose body is not XML. -/
def garbage (status : Int) : HTTPResponse := ⟨status, "text/plain", "Flake!"⟩

/-- A reply with the given status whose body is `sampleResponse`. -/
def reply (status : Int) : HTTPResponse := ⟨status, "text/xml", sampleResponse⟩

/-- An encoder of requests given as text: it fails on the empty request. -/
def encode (req : String) : Except Error String :=
  if req = "" then .error (.ext "xml: unsupported type" false) else .ok req

/-- A file system with the empty artifact `/dev/null` and an 8-byte artifact,
and digest functions that agree with SHA-1 and SHA-256 on these two inputs
(the values are those of `package_test.go`). -/
def env : Env where
  readFile := fun path =>
    if path = "/dev/null" then .ok []
    else if path = "/tmp/testing" then .ok [116, 101, 115, 116, 105, 110, 103, 10]
    else .error "no such file or directory"
  join := fun dir name => dir ++ "/" ++ name
  base := fun path => ((path.splitOn "/").getLast?).getD path
  sha1 := fun bytes =>
    if bytes = [] then "2jmj7l5rSw0yVb/vlWAYkK/YBwk="
    else if bytes = [116, 101, 115, 116, 105, 110, 103, 10] then "mAFznarkTsUpPU4fU9P00tQm2Rw="
    else "?"
  sha256 := fun bytes =>
    if bytes = [] then "47DEQpj8HBSa+/TImW+5JCeuQeRkm5NMpJWZG3hSuFU="
    else if bytes = [116, 101, 115, 116, 105, 110, 103, 10] then "EqYfThc/s6EcBdZHH3Ryj3YjG0pfzZZnzvOvh6OuTcI="
    else "?"

end example_data

end omaha

/-! ## The retrying transport: lemmas -/

namespace omaha

namespace client

section loop

variable {ρ σ : Type} (hc : httpClient σ)
  (P : String → String → Option ρ × Option Error)
  (httpT : HTTPResponse → Bool) (url body : String)

theorem doPost_net (s : σ) :
    (doPost hc P s url body).net = (hc.Post s (postCall url body)).2 := by
  unfold doPost
  rcases h : hc.Post s (postCall url body) with ⟨o, s'⟩
  cases o <;> rfl

theorem doPost_events (s : σ) :
    (doPost hc P s url body).events = [.post (postCall url body)] := by
  unfold doPost
  rcases h : hc.Post s (postCall url body) with ⟨o, s'⟩
  cases o <;> rfl

theorem doPost_of_error (s : σ) (e : Error)
    (h : (hc.Post s (postCall url body)).1 = .error e) :
    (doPost hc P s url body).resp = none ∧ (doPost hc P s url body).err = some e := by
  unfold doPost
  rcases h' : hc.Post s (postCall url body) with ⟨o, s'⟩
  rw [h'] at h
  cases o with
  | error e' =>
    simp only at h
    cases h
    exact ⟨rfl, rfl⟩
  | ok r => simp at h

theorem doPost_of_reply (s : σ) (r : HTTPResponse)
    (h : (hc.Post s (postCall url body)).1 = .ok r) :
    (doPost hc P s url body).resp = (P r.ContentType r.Body).1 ∧
    (doPost hc P s url body).err =
      if r.StatusCode ≠ StatusOK then some (Error.httpError r) else (P r.ContentType r.Body).2 := by
  unfold doPost
  rcases h' : hc.Post s (postCall url body) with ⟨o, s'⟩
  rw [h'] at h
  cases o with
  | error e' => simp at h
  | ok r' =>
    simp only at h
    cases h
    exact ⟨rfl, rfl⟩

/-- The loop stops at the first attempt whose error is not temporary: if
attempts `0 .. k-1` are retried and attempt `k < n` is not, `n` iterations
make `k + 1` posts and leave the results of attempt `k`. -/
theorem retryLoop_stop (k : Nat) :
    ∀ (n : Nat) (resp : Option ρ) (err : Option Error) (s : σ), k < n →
      (∀ j, j < k →
        isTemporary httpT (doPost hc P (netAfter hc (postCall url body) j s) url body).err = true) →
      isTemporary httpT (doPost hc P (netAfter hc (postCall url body) k s) url body).err = false →
      retryLoop hc P httpT url body n resp err s =
        ⟨(doPost hc P (netAfter hc (postCall url body) k s) url body).resp,
         (doPost hc P (netAfter hc (postCall url body) k s) url body).err,
         netAfter hc (postCall url body) (k + 1) s,
         List.replicate (k + 1) (.post (postCall url body))⟩ := by
  induction k with
  | zero =>
    intro n resp err s hn _ hlast
    obtain ⟨m, rfl⟩ : ∃ m, n = m + 1 := ⟨n - 1, by omega⟩
    simp only [netAfter] at hlast
    simp only [retryLoop, hlast, netAfter]
    have h1 := doPost_net hc P url body s
    have h2 := doPost_events hc P url body s
    rcases hd : doPost hc P s url body with ⟨a, b, c, d⟩
    rw [hd] at h1 h2
    simp only at h1 h2
    simp [← h1, h2]
  | succ k ih =>
    intro n resp err s hn hprev hlast
    obtain ⟨m, rfl⟩ : ∃ m, n = m + 1 := ⟨n - 1, by omega⟩
    have h0 := hprev 0 (by omega)
    simp only [netAfter] at h0
    have hnet := doPost_net hc P url body s
    have hev := doPost_events hc P url body s
    have ih' := ih m (doPost hc P s url body).resp (doPost hc P s url body).err
      (doPost hc P s url body).net (by omega)
      (by
        intro j hj
        have := hprev (j + 1) (by omega)
        simpa only [netAfter, hnet] using this)
      (by simpa only [netAfter, hnet] using hlast)
    simp only [retryLoop, h0, if_true, ih', hev]
    simp only [netAfter, hnet]
    simp [List.replicate_succ]

/-- The loop gives up after `n + 1` iterations: if all of them are retried,
it makes `n + 1` posts and leaves the results of the last attempt. -/
theorem retryLoop_exhaust (n : Nat) :
    ∀ (resp : Option ρ) (err : Option Error) (s : σ),
      (∀ j, j < n + 1 →
        isTemporary httpT (doPost hc P (netAfter hc (postCall url body) j s) url body).err = true) →
      retryLoop hc P httpT url body (n + 1) resp err s =
        ⟨(doPost hc P (netAfter hc (postCall url body) n s) url body).resp,
         (doPost hc P (netAfter hc (postCall url body) n s) url body).err,
         netAfter hc (postCall url body) (n + 1) s,
         List.replicate (n + 1) (.post (postCall url body))⟩ := by
  induction n with
  | zero =>
    intro resp err s hall
    have h0 := hall 0 (by omega)
    simp only [netAfter] at h0
    have hnet := doPost_net hc P url body s
    have hev := doPost_events hc P url body s
    simp only [retryLoop, h0, if_true, hev, netAfter, hnet]
    simp
  | succ n ih =>
    intro resp err s hall
    have h0 := hall 0 (by omega)
    simp only [netAfter] at h0
    have hnet := doPost_net hc P url body s
    have hev := doPost_events hc P url body s
    have ih' := ih (doPost hc P s url body).resp (doPost hc P s url body).err
      (doPost hc P s url body).net
      (by
        intro j hj
        have := hall (j + 1) (by omega)
        simpa only [netAfter, hnet] using this)
    rw [retryLoop]
    simp only [h0, if_true, ih', hev]
    simp only [netAfter, hnet]
    simp [List.replicate_succ]

/-- The loop makes at least one and at most `n` posts, all of the same call. -/
theorem retryLoop_events (n : Nat) :
    ∀ (resp : Option ρ) (err : Option Error) (s : σ), 0 < n →
      ∃ m, 1 ≤ m ∧ m ≤ n ∧
        (retryLoop hc P httpT url body n resp err s).events =
          List.replicate m (.post (postCall url body)) := by
  induction n with
  | zero => intro _ _ _ h; omega
  | succ n ih =>
    intro resp err s _
    rw [retryLoop]
    have hev := doPost_events hc P url body s
    by_cases ht : isTemporary httpT (doPost hc P s url body).err = true
    · simp only [ht, if_true, hev]
      rcases Nat.eq_zero_or_pos n with h0 | hpos
      · subst h0
        exact ⟨1, le_refl _, le_refl _, by simp [retryLoop]⟩
      · obtain ⟨m, hm1, hm2, hm⟩ := ih (doPost hc P s url body).resp
          (doPost hc P s url body).err (doPost hc P s url body).net hpos
        exact ⟨m + 1, by omega, by omega, by simp [hm, List.replicate_succ]⟩
    · simp only [ht]
      exact ⟨1, le_refl _, by omega, by simpa using hev⟩

/-- The loop, run for `n > 0` iterations, stops after some `m` posts of the
same call, `1 ≤ m ≤ n`: attempts before the `m`-th were retried, the `m`-th is
the last because its error is not temporary or because `m = n`, and the loop
leaves the results of the `m`-th attempt and the transport after `m` posts. -/
theorem retryLoop_run (n : Nat) (resp : Option ρ) (err : Option Error) (s : σ) (hn : 0 < n) :
    ∃ m, 1 ≤ m ∧ m ≤ n ∧
      (∀ j, j < m - 1 →
        isTemporary httpT (doPost hc P (netAfter hc (postCall url body) j s) url body).err = true) ∧
      (m = n ∨
        isTemporary httpT
          (doPost hc P (netAfter hc (postCall url body) (m - 1) s) url body).err = false) ∧
      retryLoop hc P httpT url body n resp err s =
        ⟨(doPost hc P (netAfter hc (postCall url body) (m - 1) s) url body).resp,
         (doPost hc P (netAfter hc (postCall url body) (m - 1) s) url body).err,
         netAfter hc (postCall url body) m s,
         List.replicate m (.post (postCall url body))⟩ := by
  by_cases hex : ∃ k, k < n ∧
      isTemporary httpT (doPost hc P (netAfter hc (postCall url body) k s) url body).err = false
  · obtain ⟨hk, hlast⟩ := Nat.find_spec hex
    have hprev : ∀ j, j < Nat.find hex →
        isTemporary httpT
          (doPost hc P (netAfter hc (postCall url body) j s) url body).err = true := by
      intro j hj
      have hmin := Nat.find_min hex hj
      by_contra hne
      exact hmin ⟨by omega, by simpa using hne⟩
    refine ⟨Nat.find hex + 1, by omega, by omega, ?_, Or.inr ?_, ?_⟩
    · simpa using hprev
    · simpa using hlast
    · simpa using retryLoop_stop hc P httpT url body (Nat.find hex) n resp err s hk hprev hlast
  · have hall : ∀ j, j < n →
        isTemporary httpT
          (doPost hc P (netAfter hc (postCall url body) j s) url body).err = true := by
      intro j hj
      by_contra hne
      exact hex ⟨j, hj, by simpa using hne⟩
    obtain ⟨m, rfl⟩ : ∃ m, n = m + 1 := ⟨n - 1, by omega⟩
    refine ⟨m + 1, by omega, le_refl _, ?_, Or.inl rfl, ?_⟩
    · intro j hj
      exact hall j (by omega)
    · simpa using retryLoop_exhaust hc P httpT url body m resp err s hall

end loop

end client

end omaha

/-! ## The retrying transport: claims -/

namespace omaha

namespace client

open example_data

/-- C1: for every reply whose status code is not 2xx, `doPost` returns
`&httpError{resp}` for that reply as its error, whatever `ParseResponse`
returned for the body (a decode error included). -/
theorem doPost_non2xx_reports_httpError {ρ σ : Type} (hc : httpClient σ)
    (P : String → String → Option ρ × Option Error) (s : σ) (url body : String)
    (r : HTTPResponse)
    (hpost : (hc.Post s (postCall url body)).1 = .ok r)
    (hstatus : ¬ (200 ≤ r.StatusCode ∧ r.StatusCode ≤ 299)) :
    (doPost hc P s url body).err = some (Error.httpError r) := by
  have h := (doPost_of_reply hc P url body s r hpost).2
  have hne : r.StatusCode ≠ StatusOK := by
    intro h200
    apply hstatus
    rw [h200]
    decide
  rw [h, if_pos hne]

/-- C1, at HTTP 500 with a body that does not parse: the error is the HTTP
status error, not the decode error that `ParseResponse` returned. -/
theorem doPost_non2xx_reports_httpError_witness :
    (parseResponse (garbage 500).ContentType (garbage 500).Body).2
        = some (Error.ext "malformed document" false) ∧
      (doPost (scripted [.ok (garbage 500)]) parseResponse 0 "http://update" "<request/>").err
        = some (Error.httpError (garbage 500)) :=
  ⟨by decide,
   doPost_non2xx_reports_httpError (scripted [.ok (garbage 500)]) parseResponse 0
     "http://update" "<request/>" (garbage 500) rfl (by decide)⟩

/-- C9 as stated fails: a reply with status 201, inside 200..299, whose body
decodes successfully as a response, makes `doPost` return an HTTP status
error instead of no error. -/
theorem doPost_201_is_status_error :
    (200 ≤ (reply 201).StatusCode ∧ (reply 201).StatusCode ≤ 299) ∧
      (parseResponse (reply 201).ContentType (reply 201).Body).2 = none ∧
      ((scripted [.ok (reply 201)]).Post 0 (postCall "http://update" "<request/>")).1
        = .ok (reply 201) ∧
      (doPost (scripted [.ok (reply 201)]) parseResponse 0 "http://update" "<request/>").err
        = some (Error.httpError (reply 201)) := by
  refine ⟨by decide, by decide, rfl, by decide⟩

/-- C9 (amended): for every reply whose status code is exactly 200, `doPost`
returns exactly the response and the error that `ParseResponse` returned for
the body (the decoded response with no error, or the decode error); for every
other status, 201..299 included, its error is the HTTP status error. -/
theorem doPost_status_error_iff_not_200 {ρ σ : Type} (hc : httpClient σ)
    (P : String → String → Option ρ × Option Error) (s : σ) (url body : String)
    (r : HTTPResponse)
    (hpost : (hc.Post s (postCall url body)).1 = .ok r) :
    (r.StatusCode = 200 →
      (doPost hc P s url body).resp = (P r.ContentType r.Body).1 ∧
      (doPost hc P s url body).err = (P r.ContentType r.Body).2) ∧
    (r.StatusCode ≠ 200 →
      (doPost hc P s url body).err = some (Error.httpError r)) := by
  obtain ⟨h1, h2⟩ := doPost_of_reply hc P url body s r hpost
  constructor
  · intro h200
    refine ⟨h1, ?_⟩
    rw [h2, if_neg (by simpa [StatusOK] using h200)]
  · intro hne
    rw [h2, if_pos (by simpa [StatusOK] using hne)]

/-- C9 (amended), at a 200 reply carrying `sampleResponse`: the decoded
response comes back with a nil error. -/
theorem doPost_status_error_iff_not_200_witness :
    (doPost (scripted [.ok (reply 200)]) parseResponse 0 "http://update" "<request/>").resp
        = some sampleResponse ∧
      (doPost (scripted [.ok (reply 200)]) parseResponse 0 "http://update" "<request/>").err
        = none := by
  have h := (doPost_status_error_iff_not_200 (scripted [.ok (reply 200)]) parseResponse 0
    "http://update" "<request/>" (reply 200) rfl).1 rfl
  refine ⟨h.1.trans (by decide), h.2.trans (by decide)⟩

/-- C2: when the request encodes and each of the first 7 posts fails with a
temporary transport error, `Omaha` makes exactly 7 posts and returns a nil
response and the 7th error wrapped as "omaha: request failed: ". -/
theorem Omaha_exhausts_retry_budget {ρ σ Req : Type} (hc : httpClient σ)
    (Encode : Req → Except Error String)
    (P : String → String → Option ρ × Option Error) (httpT : HTTPResponse → Bool)
    (s : σ) (url : String) (req : Req) (out : String) (errs : Nat → Error)
    (henc : Encode req = .ok out)
    (hfail : ∀ j, j < 7 →
      (hc.Post (netAfter hc (postCall url (xmlHeader ++ out)) j s)
        (postCall url (xmlHeader ++ out))).1 = .error (errs j) ∧
      (errs j).isTemporary httpT = true) :
    (Omaha hc Encode P httpT s url req).resp = none ∧
    (Omaha hc Encode P httpT s url req).err
      = some (Error.errorf "omaha: request failed: " (errs 6)) ∧
    (Omaha hc Encode P httpT s url req).events
      = Event.encode :: List.replicate 7 (Event.post (postCall url (xmlHeader ++ out))) ∧
    (Omaha hc Encode P httpT s url req).net
      = netAfter hc (postCall url (xmlHeader ++ out)) 7 s := by
  have hall : ∀ j, j < 6 + 1 →
      isTemporary httpT
        (doPost hc P (netAfter hc (postCall url (xmlHeader ++ out)) j s) url
          (xmlHeader ++ out)).err = true := by
    intro j hj
    obtain ⟨hp, ht⟩ := hfail j (by omega)
    rw [(doPost_of_error hc P url (xmlHeader ++ out) _ _ hp).2]
    exact ht
  have hloop := retryLoop_exhaust hc P httpT url (xmlHeader ++ out) 6 none none s hall
  have h6 := (doPost_of_error hc P url (xmlHeader ++ out) _ _ (hfail 6 (by omega)).1).2
  simp [Omaha, henc, defaultTries, hloop, h6]

/-- C2, against a transport whose every post times out. -/
theorem Omaha_exhausts_retry_budget_witness :
    (Omaha (scripted []) encode parseResponse (fun _ => false) 0 "http://update" "<request/>").resp
        = none ∧
      (Omaha (scripted []) encode parseResponse (fun _ => false) 0 "http://update" "<request/>").err
        = some (Error.errorf "omaha: request failed: " (Error.ext "connection refused" true)) ∧
      (Omaha (scripted []) encode parseResponse (fun _ => false) 0 "http://update"
          "<request/>").events
        = Event.encode ::
            List.replicate 7 (Event.post (postCall "http://update" (xmlHeader ++ "<request/>"))) ∧
      (Omaha (scripted []) encode parseResponse (fun _ => false) 0 "http://update" "<request/>").net
        = netAfter (scripted []) (postCall "http://update" (xmlHeader ++ "<request/>")) 7 0 :=
  Omaha_exhausts_retry_budget (scripted []) encode parseResponse (fun _ => false) 0
    "http://update" "<request/>" "<request/>" (fun _ => Error.ext "connection refused" true)
    rfl (fun _ _ => ⟨rfl, rfl⟩)

/-- C3: for 1 ≤ k ≤ 7, when the request encodes, posts 1..k-1 fail with
temporary transport errors and attempt k ends with anything that is not a
temporary error, `Omaha` makes exactly k posts and leaves the transport in
the state reached by k posts; an error of attempt k comes
back wrapped as "omaha: request failed: " with a nil response, and a success
comes back as the decoded response with a nil error. -/
theorem Omaha_stops_at_first_non_temporary {ρ σ Req : Type} (hc : httpClient σ)
    (Encode : Req → Except Error String)
    (P : String → String → Option ρ × Option Error) (httpT : HTTPResponse → Bool)
    (s : σ) (url : String) (req : Req) (out : String) (k : Nat) (errs : Nat → Error)
    (henc : Encode req = .ok out)
    (hk1 : 1 ≤ k) (hk7 : k ≤ 7)
    (hfail : ∀ j, j < k - 1 →
      (hc.Post (netAfter hc (postCall url (xmlHeader ++ out)) j s)
        (postCall url (xmlHeader ++ out))).1 = .error (errs j) ∧
      (errs j).isTemporary httpT = true)
    (hlast : isTemporary httpT
      (doPost hc P (netAfter hc (postCall url (xmlHeader ++ out)) (k - 1) s) url
        (xmlHeader ++ out)).err = false) :
    (Omaha hc Encode P httpT s url req).events
      = Event.encode :: List.replicate k (Event.post (postCall url (xmlHeader ++ out))) ∧
    (Omaha hc Encode P httpT s url req).net
      = netAfter hc (postCall url (xmlHeader ++ out)) k s ∧
    (∀ e, (doPost hc P (netAfter hc (postCall url (xmlHeader ++ out)) (k - 1) s) url
            (xmlHeader ++ out)).err = some e →
      (Omaha hc Encode P httpT s url req).resp = none ∧
      (Omaha hc Encode P httpT s url req).err
        = some (Error.errorf "omaha: request failed: " e)) ∧
    ((doPost hc P (netAfter hc (postCall url (xmlHeader ++ out)) (k - 1) s) url
        (xmlHeader ++ out)).err = none →
      (Omaha hc Encode P httpT s url req).resp
        = (doPost hc P (netAfter hc (postCall url (xmlHeader ++ out)) (k - 1) s) url
            (xmlHeader ++ out)).resp ∧
      (Omaha hc Encode P httpT s url req).err = none) := by
  have hprev : ∀ j, j < k - 1 →
      isTemporary httpT
        (doPost hc P (netAfter hc (postCall url (xmlHeader ++ out)) j s) url
          (xmlHeader ++ out)).err = true := by
    intro j hj
    obtain ⟨hp, ht⟩ := hfail j hj
    rw [(doPost_of_error hc P url (xmlHeader ++ out) _ _ hp).2]
    exact ht
  have hloop := retryLoop_stop hc P httpT url (xmlHeader ++ out) (k - 1) defaultTries
    none none s (by unfold defaultTries; omega) hprev hlast
  have hk : k - 1 + 1 = k := by omega
  rw [hk] at hloop
  refine ⟨?_, ?_, ?_, ?_⟩
  · simp only [Omaha, henc, hloop]
    cases (doPost hc P (netAfter hc (postCall url (xmlHeader ++ out)) (k - 1) s) url
      (xmlHeader ++ out)).err <;> rfl
  · simp only [Omaha, henc, hloop]
    cases (doPost hc P (netAfter hc (postCall url (xmlHeader ++ out)) (k - 1) s) url
      (xmlHeader ++ out)).err <;> rfl
  · intro e he
    simp [Omaha, henc, hloop, he]
  · intro he
    simp [Omaha, henc, hloop, he]

/-- C3, at k = 2 with an XML decode error on a 200 reply, and at k = 3 with a
reply that decodes. -/
theorem Omaha_stops_at_first_non_temporary_witness :
    ((Omaha (scripted [timeout, .ok (garbage 200)]) encode parseResponse (fun _ => false) 0
          "http://update" "<request/>").events
        = Event.encode ::
            List.replicate 2 (Event.post (postCall "http://update" (xmlHeader ++ "<request/>"))) ∧
      (Omaha (scripted [timeout, .ok (garbage 200)]) encode parseResponse (fun _ => false) 0
          "http://update" "<request/>").err
        = some (Error.errorf "omaha: request failed: " (Error.ext "malformed document" false))) ∧
    ((Omaha (scripted [timeout, timeout, .ok (reply 200)]) encode parseResponse (fun _ => false) 0
          "http://update" "<request/>").events
        = Event.encode ::
            List.replicate 3 (Event.post (postCall "http://update" (xmlHeader ++ "<request/>"))) ∧
      (Omaha (scripted [timeout, timeout, .ok (reply 200)]) encode parseResponse (fun _ => false) 0
          "http://update" "<request/>").resp = some sampleResponse ∧
      (Omaha (scripted [timeout, timeout, .ok (reply 200)]) encode parseResponse (fun _ => false) 0
          "http://update" "<request/>").err = none) := by
  have h2 := Omaha_stops_at_first_non_temporary (scripted [timeout, .ok (garbage 200)]) encode
    parseResponse (fun _ => false) 0 "http://update" "<request/>" "<request/>" 2
    (fun _ => Error.ext "i/o timeout" true) rfl (by decide) (by decide)
    (by intro j hj; interval_cases j; exact ⟨rfl, rfl⟩) (by decide)
  have h3 := Omaha_stops_at_first_non_temporary (scripted [timeout, timeout, .ok (reply 200)])
    encode parseResponse (fun _ => false) 0 "http://update" "<request/>" "<request/>" 3
    (fun _ => Error.ext "i/o timeout" true) rfl (by decide) (by decide)
    (by intro j hj; interval_cases j <;> exact ⟨rfl, rfl⟩) (by decide)
  refine ⟨⟨h2.1, (h2.2.2.1 _ (by decide)).2⟩, h3.1, ?_, (h3.2.2.2 (by decide)).2⟩
  exact (h3.2.2.2 (by decide)).1.trans (by decide)

/-- What the classification of `httpError` decides: when the first attempt
receives a reply whose status is not 200, `Omaha` stops after that single post
exactly when the `httpError` for the reply does not pass the retry test. -/
theorem Omaha_single_post_iff {ρ σ Req : Type} (hc : httpClient σ)
    (Encode : Req → Except Error String)
    (P : String → String → Option ρ × Option Error) (httpT : HTTPResponse → Bool)
    (s : σ) (url : String) (req : Req) (out : String) (r : HTTPResponse)
    (henc : Encode req = .ok out)
    (hpost : (hc.Post s (postCall url (xmlHeader ++ out))).1 = .ok r)
    (hstatus : r.StatusCode ≠ 200) :
    (Omaha hc Encode P httpT s url req).events
        = [Event.encode, Event.post (postCall url (xmlHeader ++ out))] ↔
      httpT r = false := by
  have herr := (doPost_of_reply hc P url (xmlHeader ++ out) s r hpost).2
  rw [if_pos (by simpa [StatusOK] using hstatus)] at herr
  have hev := doPost_events hc P url (xmlHeader ++ out) s
  cases ht : httpT r with
  | false =>
    have hlast : isTemporary httpT (doPost hc P s url (xmlHeader ++ out)).err = false := by
      rw [herr]
      exact ht
    have hloop := retryLoop_stop hc P httpT url (xmlHeader ++ out) 0 defaultTries none none s
      (by decide) (by intro j hj; omega) hlast
    simp only [netAfter] at hloop
    simp [Omaha, henc, hloop, herr]
  | true =>
    have htemp : isTemporary httpT (doPost hc P s url (xmlHeader ++ out)).err = true := by
      rw [herr]
      exact ht
    obtain ⟨m, hm1, _, hm⟩ := retryLoop_events hc P httpT url (xmlHeader ++ out) 6
      (doPost hc P s url (xmlHeader ++ out)).resp (doPost hc P s url (xmlHeader ++ out)).err
      (doPost hc P s url (xmlHeader ++ out)).net (by decide)
    have hlen : (Omaha hc Encode P httpT s url req).events.length = m + 2 := by
      simp only [Omaha, henc, defaultTries]
      rw [retryLoop]
      simp only [htemp, if_true, hev, hm]
      cases (retryLoop hc P httpT url (xmlHeader ++ out) 6
        (doPost hc P s url (xmlHeader ++ out)).resp (doPost hc P s url (xmlHeader ++ out)).err
        (doPost hc P s url (xmlHeader ++ out)).net).err <;> simp
    constructor
    · intro h
      rw [h] at hlen
      simp at hlen
      omega
    · intro h
      cases h

/-- C8: with `httpError` classed as the spec classes it (`httpErrorTemporary`),
a reply with a non-2xx status ends the call: if attempts 1..k-1 were retried
and attempt k (1 ≤ k ≤ 7) receives such a reply, `Omaha` makes exactly k posts
(the transport ends in the state reached by k posts) and returns a nil
response and that HTTP status error wrapped as "omaha: request failed: ". -/
theorem Omaha_httpError_not_retried {ρ σ Req : Type} (hc : httpClient σ)
    (Encode : Req → Except Error String)
    (P : String → String → Option ρ × Option Error)
    (s : σ) (url : String) (req : Req) (out : String) (k : Nat) (r : HTTPResponse)
    (henc : Encode req = .ok out)
    (hk1 : 1 ≤ k) (hk7 : k ≤ 7)
    (hprev : ∀ j, j < k - 1 →
      isTemporary httpErrorTemporary
        (doPost hc P (netAfter hc (postCall url (xmlHeader ++ out)) j s) url
          (xmlHeader ++ out)).err = true)
    (hpost : (hc.Post (netAfter hc (postCall url (xmlHeader ++ out)) (k - 1) s)
        (postCall url (xmlHeader ++ out))).1 = .ok r)
    (hstatus : ¬ (200 ≤ r.StatusCode ∧ r.StatusCode ≤ 299)) :
    (Omaha hc Encode P httpErrorTemporary s url req).resp = none ∧
    (Omaha hc Encode P httpErrorTemporary s url req).err
      = some (Error.errorf "omaha: request failed: " (Error.httpError r)) ∧
    (Omaha hc Encode P httpErrorTemporary s url req).events
      = Event.encode :: List.replicate k (Event.post (postCall url (xmlHeader ++ out))) ∧
    (Omaha hc Encode P httpErrorTemporary s url req).net
      = netAfter hc (postCall url (xmlHeader ++ out)) k s := by
  have hne : r.StatusCode ≠ StatusOK := by
    intro h200
    apply hstatus
    rw [h200]
    decide
  have herr := (doPost_of_reply hc P url (xmlHeader ++ out) _ r hpost).2
  rw [if_pos hne] at herr
  have hlast : isTemporary httpErrorTemporary
      (doPost hc P (netAfter hc (postCall url (xmlHeader ++ out)) (k - 1) s) url
        (xmlHeader ++ out)).err = false := by
    rw [herr]
    rfl
  have hloop := retryLoop_stop hc P httpErrorTemporary url (xmlHeader ++ out) (k - 1)
    defaultTries none none s (by unfold defaultTries; omega) hprev hlast
  have hk : k - 1 + 1 = k := by omega
  rw [hk] at hloop
  simp [Omaha, henc, hloop, herr]

/-- C8, at a 503 reply on the second attempt. -/
theorem Omaha_httpError_not_retried_witness :
    (Omaha (scripted [timeout, .ok (garbage 503)]) encode parseResponse httpErrorTemporary 0
        "http://update" "<request/>").resp = none ∧
      (Omaha (scripted [timeout, .ok (garbage 503)]) encode parseResponse httpErrorTemporary 0
          "http://update" "<request/>").err
        = some (Error.errorf "omaha: request failed: " (Error.httpError (garbage 503))) ∧
      (Omaha (scripted [timeout, .ok (garbage 503)]) encode parseResponse httpErrorTemporary 0
          "http://update" "<request/>").events
        = Event.encode ::
            List.replicate 2 (Event.post (postCall "http://update" (xmlHeader ++ "<request/>"))) ∧
      (Omaha (scripted [timeout, .ok (garbage 503)]) encode parseResponse httpErrorTemporary 0
          "http://update" "<request/>").net
        = netAfter (scripted [timeout, .ok (garbage 503)])
            (postCall "http://update" (xmlHeader ++ "<request/>")) 2 0 :=
  Omaha_httpError_not_retried (scripted [timeout, .ok (garbage 503)]) encode parseResponse 0
    "http://update" "<request/>" "<request/>" 2 (garbage 503) rfl (by decide) (by decide)
    (by intro j hj; interval_cases j; decide) rfl (by decide)

/-- C10: if encoding the request fails, `Omaha` makes no post (the transport
is left untouched) and returns a nil response and the encoding error wrapped
as "omaha: failed to encode request: "; if it succeeds, the request is encoded
once and `Omaha` makes some number m of attempts, 1 ≤ m ≤ 7, each of which
really posts the same bytes, `xml.Header` followed by the encoding, as
`text/xml; charset=utf-8`: the transport ends in the state reached by m posts
of that call, the attempts before the m-th were retried, the m-th is the last
because its error is not temporary or because m = 7, and the results are those
of the m-th attempt (its error, if any, wrapped as "omaha: request failed: "). -/
theorem Omaha_encodes_once {ρ σ Req : Type} (hc : httpClient σ)
    (Encode : Req → Except Error String)
    (P : String → String → Option ρ × Option Error) (httpT : HTTPResponse → Bool)
    (s : σ) (url : String) (req : Req) :
    match Encode req with
    | .error e =>
      (Omaha hc Encode P httpT s url req).resp = none ∧
      (Omaha hc Encode P httpT s url req).err
        = some (Error.errorf "omaha: failed to encode request: " e) ∧
      (Omaha hc Encode P httpT s url req).events = [Event.encode] ∧
      (Omaha hc Encode P httpT s url req).net = s
    | .ok out =>
      ∃ m, 1 ≤ m ∧ m ≤ 7 ∧
        (Omaha hc Encode P httpT s url req).events
          = Event.encode :: List.replicate m
              (Event.post ⟨url, "text/xml; charset=utf-8",
                "<?xml version=\"1.0\" encoding=\"UTF-8\"?>\n" ++ out⟩) ∧
        (Omaha hc Encode P httpT s url req).net
          = netAfter hc ⟨url, "text/xml; charset=utf-8",
              "<?xml version=\"1.0\" encoding=\"UTF-8\"?>\n" ++ out⟩ m s ∧
        (∀ j, j < m - 1 →
          isTemporary httpT
            (doPost hc P (netAfter hc (postCall url (xmlHeader ++ out)) j s) url
              (xmlHeader ++ out)).err = true) ∧
        (m = 7 ∨
          isTemporary httpT
            (doPost hc P (netAfter hc (postCall url (xmlHeader ++ out)) (m - 1) s) url
              (xmlHeader ++ out)).err = false) ∧
        (∀ e, (doPost hc P (netAfter hc (postCall url (xmlHeader ++ out)) (m - 1) s) url
                (xmlHeader ++ out)).err = some e →
          (Omaha hc Encode P httpT s url req).resp = none ∧
          (Omaha hc Encode P httpT s url req).err
            = some (Error.errorf "omaha: request failed: " e)) ∧
        ((doPost hc P (netAfter hc (postCall url (xmlHeader ++ out)) (m - 1) s) url
            (xmlHeader ++ out)).err = none →
          (Omaha hc Encode P httpT s url req).resp
            = (doPost hc P (netAfter hc (postCall url (xmlHeader ++ out)) (m - 1) s) url
                (xmlHeader ++ out)).resp ∧
          (Omaha hc Encode P httpT s url req).err = none) := by
  cases henc : Encode req with
  | error e => simp [Omaha, henc]
  | ok out =>
    obtain ⟨m, hm1, hm7, hprev, hlast, hrun⟩ := retryLoop_run hc P httpT url (xmlHeader ++ out)
      defaultTries none none s (by decide)
    have hcall : (⟨url, "text/xml; charset=utf-8",
        "<?xml version=\"1.0\" encoding=\"UTF-8\"?>\n" ++ out⟩ : PostCall)
        = postCall url (xmlHeader ++ out) := rfl
    refine ⟨m, hm1, hm7, ?_, ?_, hprev, hlast, ?_, ?_⟩
    · rw [hcall]
      simp only [Omaha, henc, hrun]
      cases (doPost hc P (netAfter hc (postCall url (xmlHeader ++ out)) (m - 1) s) url
        (xmlHeader ++ out)).err <;> rfl
    · rw [hcall]
      simp only [Omaha, henc, hrun]
      cases (doPost hc P (netAfter hc (postCall url (xmlHeader ++ out)) (m - 1) s) url
        (xmlHeader ++ out)).err <;> rfl
    · intro e he
      simp [Omaha, henc, hrun, he]
    · intro he
      simp [Omaha, henc, hrun, he]

/-- C10, on a request that does not encode (no post, the transport untouched)
and on a request that encodes and is answered at the third attempt. -/
theorem Omaha_encodes_once_witness :
    ((Omaha (scripted [timeout, timeout, .ok (reply 200)]) encode parseResponse (fun _ => false) 0
          "http://update" "").events = [Event.encode] ∧
      (Omaha (scripted [timeout, timeout, .ok (reply 200)]) encode parseResponse (fun _ => false) 0
          "http://update" "").net = 0 ∧
      (Omaha (scripted [timeout, timeout, .ok (reply 200)]) encode parseResponse (fun _ => false) 0
          "http://update" "").err
        = some (Error.errorf "omaha: failed to encode request: "
            (Error.ext "xml: unsupported type" false))) ∧
    ∃ m, 1 ≤ m ∧ m ≤ 7 ∧
      (Omaha (scripted [timeout, timeout, .ok (reply 200)]) encode parseResponse (fun _ => false) 0
          "http://update" "<request/>").events
        = Event.encode :: List.replicate m
            (Event.post ⟨"http://update", "text/xml; charset=utf-8",
              "<?xml version=\"1.0\" encoding=\"UTF-8\"?>\n" ++ "<request/>"⟩) ∧
      (Omaha (scripted [timeout, timeout, .ok (reply 200)]) encode parseResponse (fun _ => false) 0
          "http://update" "<request/>").net
        = netAfter (scripted [timeout, timeout, .ok (reply 200)])
            ⟨"http://update", "text/xml; charset=utf-8",
              "<?xml version=\"1.0\" encoding=\"UTF-8\"?>\n" ++ "<request/>"⟩ m 0 := by
  have hfail := Omaha_encodes_once (scripted [timeout, timeout, .ok (reply 200)]) encode
    parseResponse (fun _ => false) 0 "http://update" ""
  have hok := Omaha_encodes_once (scripted [timeout, timeout, .ok (reply 200)]) encode
    parseResponse (fun _ => false) 0 "http://update" "<request/>"
  have e1 : encode "" = .error (Error.ext "xml: unsupported type" false) := rfl
  have e2 : encode "<request/>" = .ok "<request/>" := rfl
  rw [e1] at hfail
  rw [e2] at hok
  obtain ⟨m, hm1, hm7, hev, hnet, _⟩ := hok
  exact ⟨⟨hfail.2.2.1, hfail.2.2.2, hfail.2.1⟩, m, hm1, hm7, hev, hnet⟩

end client

end omaha

/-! ## Package verifier and kind-checked decoding: claims -/

namespace omaha

open example_data

theorem Verify_of_read (env : Env) (p : Package) (basePath : String) (bytes : List Nat)
    (hread : env.readFile (env.join basePath p.Name) = .ok bytes) :
    Package.Verify env p basePath =
      if p.Size ≠ bytes.length then .error .PackageSizeMismatchError
      else if p.SHA1 ≠ env.sha1 bytes then .error .PackageHashMismatchError
      else if p.SHA256 ≠ "" ∧ p.SHA256 ≠ env.sha256 bytes then .error .PackageHashMismatchError
      else .ok () := by
  simp only [Package.Verify, Package.FromPath, Package.FromReader, hread]

/-- C4: when the artifact at `basePath` joined with the Name can be read,
`Verify` succeeds if and only if the recorded Size is the artifact's byte
length, the recorded SHA1 is its base64 SHA-1, and the recorded SHA256 is
empty or is its base64 SHA-256; in particular a Package with an empty SHA256
and correct Size and SHA1 verifies. -/
theorem Verify_ok_iff (env : Env) (p : Package) (basePath : String) (bytes : List Nat)
    (hread : env.readFile (env.join basePath p.Name) = .ok bytes) :
    (Package.Verify env p basePath = .ok () ↔
      p.Size = bytes.length ∧ p.SHA1 = env.sha1 bytes ∧
        (p.SHA256 = "" ∨ p.SHA256 = env.sha256 bytes)) ∧
    (p.SHA256 = "" → p.Size = bytes.length → p.SHA1 = env.sha1 bytes →
      Package.Verify env p basePath = .ok ()) := by
  rw [Verify_of_read env p basePath bytes hread]
  by_cases hs : p.Size = bytes.length
  · by_cases h1 : p.SHA1 = env.sha1 bytes
    · by_cases h2 : p.SHA256 = ""
      · simp [hs, h1, h2]
      · by_cases h3 : p.SHA256 = env.sha256 bytes
        · simp [hs, h1, h2, h3]
        · simp [hs, h1, h2, h3]
    · simp [hs, h1]
  · simp [hs]

/-- C4, on the packages of TestPackageVerify and TestPackageVerifyNoSHA256:
both verify against the empty artifact. -/
theorem Verify_ok_iff_witness :
    Package.Verify env
        ⟨"null", "2jmj7l5rSw0yVb/vlWAYkK/YBwk=", "47DEQpj8HBSa+/TImW+5JCeuQeRkm5NMpJWZG3hSuFU=",
          0, false, none⟩ "/dev" = .ok () ∧
      Package.Verify env ⟨"null", "2jmj7l5rSw0yVb/vlWAYkK/YBwk=", "", 0, false, none⟩ "/dev"
        = .ok () :=
  ⟨(Verify_ok_iff env
      ⟨"null", "2jmj7l5rSw0yVb/vlWAYkK/YBwk=", "47DEQpj8HBSa+/TImW+5JCeuQeRkm5NMpJWZG3hSuFU=",
        0, false, none⟩ "/dev" [] rfl).1.mpr ⟨rfl, by decide, Or.inr (by decide)⟩,
   (Verify_ok_iff env ⟨"null", "2jmj7l5rSw0yVb/vlWAYkK/YBwk=", "", 0, false, none⟩ "/dev" []
      rfl).2 rfl rfl (by decide)⟩

/-- C5: when the artifact can be read, a recorded Size that differs from its
byte length makes `Verify` fail with PackageSizeMismatchError (so not with
PackageHashMismatchError), whatever the recorded digests; when the Size
matches and the recorded SHA1, or a non-empty recorded SHA256, differs from
the computed digest, `Verify` fails with PackageHashMismatchError. -/
theorem Verify_mismatch_errors (env : Env) (p : Package) (basePath : String)
    (bytes : List Nat)
    (hread : env.readFile (env.join basePath p.Name) = .ok bytes) :
    (p.Size ≠ bytes.length →
      Package.Verify env p basePath = .error .PackageSizeMismatchError ∧
      Package.Verify env p basePath ≠ .error .PackageHashMismatchError) ∧
    (p.Size = bytes.length →
      (p.SHA1 ≠ env.sha1 bytes ∨ (p.SHA256 ≠ "" ∧ p.SHA256 ≠ env.sha256 bytes)) →
      Package.Verify env p basePath = .error .PackageHashMismatchError) := by
  rw [Verify_of_read env p basePath bytes hread]
  constructor
  · intro hs
    simp [hs]
  · intro hs hd
    by_cases h1 : p.SHA1 = env.sha1 bytes
    · rcases hd with hd | ⟨h2, h3⟩
      · exact absurd h1 hd
      · simp [hs, h1, h2, h3]
    · simp [hs, h1]

/-- C5, on the packages of TestPackageVerifyBadSize (with both digests
corrupted as well), TestPackageVerifyBadSHA1 and TestPackageVerifyBadSHA256. -/
theorem Verify_mismatch_errors_witness :
    Package.Verify env ⟨"null", "xxxxxxxxxxxxxxxxxxxxxxxxxxx=", "xx", 1, false, none⟩ "/dev"
        = .error .PackageSizeMismatchError ∧
      Package.Verify env
          ⟨"null", "xxxxxxxxxxxxxxxxxxxxxxxxxxx=", "47DEQpj8HBSa+/TImW+5JCeuQeRkm5NMpJWZG3hSuFU=",
            0, false, none⟩ "/dev" = .error .PackageHashMismatchError ∧
      Package.Verify env
          ⟨"null", "2jmj7l5rSw0yVb/vlWAYkK/YBwk=", "xxxxxxxxxxxxxxxxxxxxxxxxxxxxxxxxxxxxxxxxxxx=",
            0, false, none⟩ "/dev" = .error .PackageHashMismatchError :=
  ⟨((Verify_mismatch_errors env ⟨"null", "xxxxxxxxxxxxxxxxxxxxxxxxxxx=", "xx", 1, false, none⟩
      "/dev" [] rfl).1 (by decide)).1,
   (Verify_mismatch_errors env
      ⟨"null", "xxxxxxxxxxxxxxxxxxxxxxxxxxx=", "47DEQpj8HBSa+/TImW+5JCeuQeRkm5NMpJWZG3hSuFU=",
        0, false, none⟩ "/dev" [] rfl).2 rfl (Or.inl (by decide)),
   (Verify_mismatch_errors env
      ⟨"null", "2jmj7l5rSw0yVb/vlWAYkK/YBwk=", "xxxxxxxxxxxxxxxxxxxxxxxxxxxxxxxxxxxxxxxxxxx=",
        0, false, none⟩ "/dev" [] rfl).2 rfl (Or.inr ⟨by decide, by decide⟩)⟩

/-- C6: for every well-formed document whose root element is `response`,
`ParseRequest` returns an error, and for every well-formed document whose root
element is `request`, `ParseResponse` returns an error, whatever the structural
decoders would make of the document. -/
theorem Parse_rejects_other_kind {Req Resp : Type} (c : Codec Req Resp)
    (contentType body : String) :
    (c.rootElement contentType body = some "response" →
      ParseRequest c contentType body = .error (.ProtocolKindMismatch "request" "response")) ∧
    (c.rootElement contentType body = some "request" →
      ParseResponse c contentType body = .error (.ProtocolKindMismatch "response" "request")) := by
  constructor
  · intro h
    simp [ParseRequest, h]
  · intro h
    simp [ParseResponse, h]

/-- C6, on the documents of TestOmahaResponsAsRequest and
TestOmahaRequestAsResponse, with structural decoders that accept both. -/
theorem Parse_rejects_other_kind_witness :
    (permissiveCodec.decodeRequest "" sampleResponse = .ok sampleResponse ∧
      ParseRequest permissiveCodec "" sampleResponse
        = .error (.ProtocolKindMismatch "request" "response")) ∧
    (permissiveCodec.decodeResponse "" sampleRequest = .ok sampleRequest ∧
      ParseResponse permissiveCodec "" sampleRequest
        = .error (.ProtocolKindMismatch "response" "request")) :=
  ⟨⟨rfl, (Parse_rejects_other_kind permissiveCodec "" sampleResponse).1 (by decide)⟩,
   ⟨rfl, (Parse_rejects_other_kind permissiveCodec "" sampleRequest).2 (by decide)⟩⟩

end omaha
